import Mathlib

/-!
Verification of the OAuth 1 request validator (`validator.go`).

The Go source is shallowly embedded: pure helpers become Lean functions,
the external collaborators (parameter collection, signature-base
construction, client storage, signers) become explicit function
parameters, and Go `error` values become an inductive `GoError` so that
error identity is constructor identity.  Instrumented `…T` variants
additionally return the list of collaborator calls performed, which lets
us state which calls occur on each path.
-/

/-- Model of the inbound `*http.Request`: the only field the validator
inspects directly is the `Authorization` header (via `Header.Get`); the
rest of the request is only forwarded to collaborators, so an opaque tag
stands for it. -/
structure HttpRequest where
  authHeader : String
  tag : Nat := 0
deriving DecidableEq

/-- Go `error` values returned by the validator and its collaborators.
Each `fmt.Errorf` in the source gets one constructor; `external` stands
for error values produced by collaborators (client storage, signers). -/
inductive GoError where
  | invalidAuthHeader
  | escapeError (s : String)
  | missingParams (ps : List String)
  | tokenNotImplemented
  | timestampParse (s : String)
  | invalidTimestamp (t : Int)
  | incorrectVersion (v : String)
  | signatureMismatch
  | external (s : String)
deriving DecidableEq

instance {ε α : Type} [DecidableEq ε] [DecidableEq α] : DecidableEq (Except ε α) := fun x y =>
  match x, y with
  | .error a, .error b =>
    if h : a = b then .isTrue (congrArg Except.error h)
    else .isFalse (fun hh => h (Except.error.inj hh))
  | .error _, .ok _ => .isFalse (fun hh => Except.noConfusion hh)
  | .ok _, .error _ => .isFalse (fun hh => Except.noConfusion hh)
  | .ok a, .ok b =>
    if h : a = b then .isTrue (congrArg Except.ok h)
    else .isFalse (fun hh => h (Except.ok.inj hh))

/-- The `Signer` capability: its `Sign(tokenSecret, message)` method. -/
def Signer : Type := String → String → Except GoError String

/-- The `ClientStorage` interface: `GetSigner` returns a (possibly nil)
`Signer` together with a possibly non-nil error, `ValidateNonce` returns
a possibly non-nil error. -/
structure ClientStorage where
  getSigner : String → String → HttpRequest → Option Signer × Option GoError
  validateNonce : String → String → Int → HttpRequest → Option GoError

/-- The external `collectParameters` collaborator: merges the
header-sourced parameters with the other request parameter sources. -/
def CollectParameters : Type :=
  HttpRequest → List (String × String) → Except GoError (List (String × String))

/-- The external `signatureBase` collaborator: builds the canonical
signature base string from the request and the parameter map. -/
def SignatureBase : Type := HttpRequest → List (String × String) → String

/-- Modelled from the spec: OAuth parameter-name constant declared outside
`src/` (the signature parameter, §4.2). The claims do not depend on its
concrete value. -/
def oauthSignatureParam : String := "oauth_signature"

/-- Modelled from the spec: the consumer/client key parameter name. -/
def oauthConsumerKeyParam : String := "oauth_consumer_key"

/-- Modelled from the spec: the nonce parameter name. -/
def oauthNonceParam : String := "oauth_nonce"

/-- Modelled from the spec: the timestamp parameter name. -/
def oauthTimestampParam : String := "oauth_timestamp"

/-- Modelled from the spec: the signature-method parameter name. -/
def oauthSignatureMethodParam : String := "oauth_signature_method"

/-- Modelled from the spec: the token-credential parameter name. -/
def oauthTokenParam : String := "oauth_token"

/-- Modelled from the spec: the protocol-version parameter name. -/
def oauthVersionParam : String := "oauth_version"

/-- Modelled from the spec: the single supported version string. -/
def defaultOauthVersion : String := "1.0"

/-- Modelled from the spec: the Authorization scheme token that prefixes
the header value, `authorizationPrefix` in the source package. -/
def oauthScheme : String := "OAuth "

/-- Go map membership `_, ok := m[k]` on the association-list model. -/
def containsKey (m : List (String × String)) (k : String) : Bool :=
  m.any (fun p => p.1 = k)

/-- Go map read `m[k]` (zero value `""` when the key is absent). -/
def lookupD (m : List (String × String)) (k : String) : String :=
  (m.lookup k).getD ""

/-- Go `delete(m, k)`. -/
def eraseKey (m : List (String × String)) (k : String) : List (String × String) :=
  m.filter (fun p => p.1 ≠ k)

/-- Go map write `m[k] = v`. -/
def insertParam (m : List (String × String)) (k v : String) : List (String × String) :=
  (k, v) :: m.filter (fun p => p.1 ≠ k)

/-- The character class `\s` of Go's regexp package: `[\t\n\f\r ]`. -/
def isGoSpace (c : Char) : Bool :=
  c = ' ' || c = '\t' || c = '\n' || c = '\x0c' || c = '\r'

/-- Matching of the regex tail `"?\s*$`: a greedy optional quote followed
by whitespace to the end. -/
def closeTail : List Char → Bool
  | '"' :: rest => rest.all isGoSpace
  | u => u.all isGoSpace

/-- Matching of `(\S*?)"?\s*$` with leftmost-first semantics: the lazy
group takes the shortest non-whitespace prefix after which `"?\s*$`
matches; returns the captured group. -/
def lazyValue : List Char → Option (List Char)
  | [] => if closeTail [] then some [] else none
  | c :: rest =>
    if closeTail (c :: rest) then some []
    else if isGoSpace c then none
    else (lazyValue rest).map (fun v => c :: v)

/-- Matching of `"?(\S*?)"?\s*$`: the leading optional quote is greedy,
so it is consumed first and released only if the rest cannot match. -/
def valueTail (u : List Char) : Option (List Char) :=
  match u with
  | '"' :: rest =>
    match lazyValue rest with
    | some v => some v
    | none => lazyValue u
  | _ => lazyValue u

/-- `authorizationHeaderParamPattern.FindStringSubmatch` for the pattern
`^\s*([^=]+)="?(\S*?)"?\s*$`: `[^=]+` cannot cross an `=`, so the
literal `=` is the first `=` of the segment; the greedy `\s*` keeps the
maximal whitespace prefix that still leaves the group non-empty.
Returns the two capture groups on success. -/
def matchAuthParam (s : String) : Option (String × String) :=
  let cs := s.toList
  match cs.findIdx? (fun c => c = '=') with
  | none => none
  | some k =>
    if k = 0 then none
    else
      let w := (cs.takeWhile isGoSpace).length
      let j := min w (k - 1)
      match valueTail (cs.drop (k + 1)) with
      | none => none
      | some v => some (String.mk ((cs.take k).drop j), String.mk v)

/-- Hexadecimal digit value, as in `net/url`'s `unhex`. -/
def hexVal (c : Char) : Option Nat :=
  if '0' ≤ c ∧ c ≤ '9' then some (c.toNat - '0'.toNat)
  else if 'a' ≤ c ∧ c ≤ 'f' then some (c.toNat - 'a'.toNat + 10)
  else if 'A' ≤ c ∧ c ≤ 'F' then some (c.toNat - 'A'.toNat + 10)
  else none

/-- `url.PathUnescape` on the character-list model: every `%` must be
followed by two hex digits, otherwise the escape error for the offending
(up to three character) substring is returned; `+` is kept verbatim. -/
def unescapeList : List Char → Except GoError (List Char)
  | [] => .ok []
  | '%' :: a :: b :: rest =>
    match hexVal a, hexVal b with
    | some ha, some hb => (unescapeList rest).map (fun v => Char.ofNat (16 * ha + hb) :: v)
    | _, _ => .error (.escapeError (String.mk ['%', a, b]))
  | '%' :: rest => .error (.escapeError (String.mk ('%' :: rest)))
  | c :: rest => (unescapeList rest).map (fun v => c :: v)

/-- `url.PathUnescape` on strings. -/
def pathUnescape (s : String) : Except GoError String :=
  (unescapeList s.toList).map String.mk

/-- Go `strings.Split(s, ",")` on the character-list model. -/
def splitComma : List Char → List (List Char)
  | [] => [[]]
  | c :: rest =>
    if c = ',' then [] :: splitComma rest
    else
      match splitComma rest with
      | [] => [[c]]
      | s :: ss => (c :: s) :: ss

/-- The loop body of `newProviderRequest` over the split Authorization
header segments: each segment must match the pattern, its value must
percent-decode, and the decoded pair is stored in the parameter map. -/
def parseAuthSegments (acc : List (String × String)) : List String → Except GoError (List (String × String))
  | [] => .ok acc
  | seg :: rest =>
    match matchAuthParam seg with
    | none => .error .invalidAuthHeader
    | some nv =>
      match pathUnescape nv.2 with
      | .error e => .error e
      | .ok value => parseAuthSegments (insertParam acc nv.1 value) rest

/-- The Authorization-header part of `newProviderRequest`: when the
header is longer than the scheme token and its prefix matches it
case-insensitively, the remainder is split on commas and parsed
segment by segment; otherwise the header contributes no parameters. -/
def parseAuthHeader (req : HttpRequest) : Except GoError (List (String × String)) :=
  let cs := req.authHeader.toList
  let pre := oauthScheme.toList
  if cs.length > pre.length then
    if (cs.take pre.length).map Char.toLower = pre.map Char.toLower then
      parseAuthSegments [] ((splitComma (cs.drop pre.length)).map String.mk)
    else .ok []
  else .ok []

/-- The list ranged over by `checkMandatoryParams`. -/
def mandatoryParams : List String :=
  [oauthSignatureParam, oauthConsumerKeyParam, oauthNonceParam, oauthTimestampParam, oauthSignatureMethodParam]

/-- `checkMandatoryParams`: collects every absent mandatory parameter
into one aggregated error; only when all five are present is the
token-credential parameter rejected as not implemented. -/
def checkMandatoryParams (params : List (String × String)) : Option GoError :=
  let missing := mandatoryParams.filter (fun p => ! containsKey params p)
  if missing.length > 0 then some (.missingParams missing)
  else if containsKey params oauthTokenParam then some .tokenNotImplemented
  else none

/-- `strconv.ParseInt(s, 10, 64)` as a partial function: an optional
sign, then at least one decimal digit, and the value must fit a signed
64-bit integer; `none` on any syntax or range failure. -/
def parseInt64 (s : String) : Option Int :=
  match s.toList with
  | [] => none
  | c :: rest =>
    let ds := if c = '-' ∨ c = '+' then rest else c :: rest
    if ds.isEmpty || ds.any (fun d => ! d.isDigit) then none
    else
      let n : Int := Int.ofNat (ds.foldl (fun a d => 10 * a + (d.toNat - 48)) 0)
      let v : Int := if c = '-' then -n else n
      if v < -(2 ^ 63) ∨ 2 ^ 63 - 1 < v then none
      else some v

/-- The `providerRequest` struct. -/
structure ProviderRequest where
  req : HttpRequest
  oauthParams : List (String × String)
  signatureToVerify : String
  signatureMethod : String
  timestamp : Int
  clientKey : String
  nonce : String
deriving DecidableEq

/-- Construction of the `providerRequest` literal at the end of
`newProviderRequest`. -/
def mkProviderRequest (req : HttpRequest) (allParams : List (String × String)) (timestamp : Int) : ProviderRequest :=
  { req := req
    oauthParams := eraseKey allParams oauthSignatureParam
    signatureToVerify := lookupD allParams oauthSignatureParam
    signatureMethod := lookupD (eraseKey allParams oauthSignatureParam) oauthSignatureMethodParam
    timestamp := timestamp
    clientKey := lookupD (eraseKey allParams oauthSignatureParam) oauthConsumerKeyParam
    nonce := lookupD (eraseKey allParams oauthSignatureParam) oauthNonceParam }

/-- The tail of `newProviderRequest` after `collectParameters` returned
`allParams`: mandatory-parameter check, signature extraction and
deletion, timestamp parsing and positivity, version check, and the
construction of the `providerRequest`. -/
def providerRequestOfParams (req : HttpRequest) (allParams0 : List (String × String)) : Except GoError ProviderRequest :=
  match checkMandatoryParams allParams0 with
  | some e => .error e
  | none =>
    match parseInt64 (lookupD (eraseKey allParams0 oauthSignatureParam) oauthTimestampParam) with
    | none => .error (.timestampParse (lookupD (eraseKey allParams0 oauthSignatureParam) oauthTimestampParam))
    | some timestamp =>
      if timestamp ≤ 0 then .error (.invalidTimestamp timestamp)
      else
        match (eraseKey allParams0 oauthSignatureParam).lookup oauthVersionParam with
        | some version =>
          if version ≠ defaultOauthVersion then .error (.incorrectVersion version)
          else .ok (mkProviderRequest req allParams0 timestamp)
        | none => .ok (mkProviderRequest req allParams0 timestamp)

/-- `newProviderRequest`: Authorization-header parsing, the
`collectParameters` collaborator call, and the protocol-guard checks. -/
def newProviderRequest (cp : CollectParameters) (req : HttpRequest) : Except GoError ProviderRequest :=
  match parseAuthHeader req with
  | .error e => .error e
  | .ok authParams =>
    match cp req authParams with
    | .error e => .error e
    | .ok allParams0 => providerRequestOfParams req allParams0

/-- Collaborator-call events recorded by the instrumented variants. -/
inductive Event where
  | collectParams
  | validateNonce
  | getSigner
  | checkSig
  | sigBase
  | sign
  | byteCmp
deriving DecidableEq

/-- `newProviderRequest`, also returning the collaborator calls made:
`collectParameters` is called exactly when the header parse succeeded. -/
def newProviderRequestT (cp : CollectParameters) (req : HttpRequest) : Except GoError ProviderRequest × List Event :=
  match parseAuthHeader req with
  | .error e => (.error e, [])
  | .ok authParams =>
    (match cp req authParams with
     | .error e => .error e
     | .ok allParams0 => providerRequestOfParams req allParams0,
     [Event.collectParams])

/-- `providerRequest.checkSignature`: a nil signer is an immediate
generic mismatch; otherwise the expected signature is computed over the
signature base and compared to the supplied one, first by length and
then by a cumulative or of per-byte xor differences. -/
def checkSignature (sb : SignatureBase) (r : ProviderRequest) (signer : Option Signer) : Option GoError :=
  match signer with
  | none => some .signatureMismatch
  | some f =>
    match f "" (sb r.req r.oauthParams) with
    | .error err => some err
    | .ok signature =>
      if r.signatureToVerify.length ≠ signature.length then some .signatureMismatch
      else if (signature.toList.zip r.signatureToVerify.toList).foldl
          (fun acc p => acc ||| (p.1.toNat ^^^ p.2.toNat)) 0 ≠ 0 then
        some .signatureMismatch
      else none

/-- `checkSignature` with the work it performs recorded: entry, the
signature-base construction, the `Sign` call, and the byte-comparison
loop. -/
def checkSignatureT (sb : SignatureBase) (r : ProviderRequest) (signer : Option Signer) : Option GoError × List Event :=
  match signer with
  | none => (some .signatureMismatch, [Event.checkSig])
  | some f =>
    match f "" (sb r.req r.oauthParams) with
    | .error err => (some err, [Event.checkSig, Event.sigBase, Event.sign])
    | .ok signature =>
      if r.signatureToVerify.length ≠ signature.length then
        (some .signatureMismatch, [Event.checkSig, Event.sigBase, Event.sign])
      else if (signature.toList.zip r.signatureToVerify.toList).foldl
          (fun acc p => acc ||| (p.1.toNat ^^^ p.2.toNat)) 0 ≠ 0 then
        (some .signatureMismatch, [Event.checkSig, Event.sigBase, Event.sign, Event.byteCmp])
      else (none, [Event.checkSig, Event.sigBase, Event.sign, Event.byteCmp])

/-- `ValidateSignature`: build the provider request, check the nonce,
resolve the signer, always run `checkSignature`, and merge the two
outcomes with the client-resolution error taking precedence. -/
def ValidateSignature (cp : CollectParameters) (sb : SignatureBase) (v : ClientStorage) (req : HttpRequest) : Option GoError :=
  match newProviderRequest cp req with
  | .error e => some e
  | .ok preq =>
    match v.validateNonce preq.clientKey preq.nonce preq.timestamp req with
    | some e => some e
    | none =>
      match v.getSigner preq.clientKey preq.signatureMethod req with
      | (signer, invalidClient) =>
        let invalidSignature := checkSignature sb preq signer
        match invalidClient with
        | some e => some e
        | none => invalidSignature

/-- `ValidateSignature` with its collaborator calls recorded. -/
def ValidateSignatureT (cp : CollectParameters) (sb : SignatureBase) (v : ClientStorage) (req : HttpRequest) : Option GoError × List Event :=
  match (newProviderRequestT cp req).1 with
  | .error e => (some e, (newProviderRequestT cp req).2)
  | .ok preq =>
    match v.validateNonce preq.clientKey preq.nonce preq.timestamp req with
    | some e => (some e, (newProviderRequestT cp req).2 ++ [Event.validateNonce])
    | none =>
      match (v.getSigner preq.clientKey preq.signatureMethod req).2 with
      | some e =>
        (some e, (newProviderRequestT cp req).2 ++ [Event.validateNonce, Event.getSigner]
          ++ (checkSignatureT sb preq (v.getSigner preq.clientKey preq.signatureMethod req).1).2)
      | none =>
        ((checkSignatureT sb preq (v.getSigner preq.clientKey preq.signatureMethod req).1).1,
         (newProviderRequestT cp req).2 ++ [Event.validateNonce, Event.getSigner]
          ++ (checkSignatureT sb preq (v.getSigner preq.clientKey preq.signatureMethod req).1).2)

/-! ### Concrete fixtures used by counterexamples and witnesses -/

/-- A request with no Authorization header. -/
def req0 : HttpRequest := { authHeader := "" }

/-- A parameter map carrying the five mandatory parameters. -/
def params5 : List (String × String) :=
  [(oauthConsumerKeyParam, "ck"), (oauthNonceParam, "n1"), (oauthTimestampParam, "1"),
   (oauthSignatureMethodParam, "HMAC-SHA1"), (oauthSignatureParam, "sigv")]

/-- A `collectParameters` collaborator returning a fixed parameter map. -/
def cpOk (ps : List (String × String)) : CollectParameters := fun _ _ => .ok ps

/-- A signature-base collaborator returning a fixed base string. -/
def sb0 : SignatureBase := fun _ _ => "base"

/-- A signer that reproduces the signature carried by `params5`. -/
def signerOk : Signer := fun _ _ => .ok "sigv"

/-- A signer whose `Sign` call fails with a collaborator error. -/
def signerBad : Signer := fun _ _ => .error (.external "boom")

/-- A signer producing a signature of a different length. -/
def signerLong : Signer := fun _ _ => .ok "toolong"

/-- A signer producing an equal-length signature differing in one byte. -/
def signerDiff : Signer := fun _ _ => .ok "sigx"

/-- Storage that accepts the nonce but reports an unknown client, while
still handing back a usable signer. -/
def csUnknown : ClientStorage :=
  { getSigner := fun _ _ _ => (some signerOk, some (.external "unknown client"))
    validateNonce := fun _ _ _ _ => none }

/-- Storage that rejects the nonce as a replay. -/
def csNonce : ClientStorage :=
  { getSigner := fun _ _ _ => (some signerOk, none)
    validateNonce := fun _ _ _ _ => some (.external "replay") }

/-- Storage that accepts the nonce and resolves the client. -/
def csOk : ClientStorage :=
  { getSigner := fun _ _ _ => (some signerOk, none)
    validateNonce := fun _ _ _ _ => none }

/-- The provider request obtained from `params5` on `req0`. -/
def pr0 : ProviderRequest := mkProviderRequest req0 params5 1

/-! ### Helper lemmas -/

theorem char_toNat_inj {c d : Char} (h : c.toNat = d.toNat) : c = d := by
  cases c with
  | mk v hv =>
    cases d with
    | mk w hw =>
      simp only [Char.toNat] at h
      congr 1
      cases v
      cases w
      simp only [UInt32.toNat] at h
      congr 1
      exact BitVec.eq_of_toNat_eq h

theorem nat_or_eq_zero (a b : Nat) : a ||| b = 0 ↔ a = 0 ∧ b = 0 := by
  constructor
  · intro h
    have key : ∀ i, Nat.testBit a i = false ∧ Nat.testBit b i = false := by
      intro i
      have h2 : Nat.testBit (a ||| b) i = false := by
        rw [h]
        exact Nat.zero_testBit i
      rw [Nat.testBit_lor] at h2
      exact Bool.or_eq_false_iff.mp h2
    exact ⟨Nat.zero_of_testBit_eq_false (fun i => (key i).1),
           Nat.zero_of_testBit_eq_false (fun i => (key i).2)⟩
  · rintro ⟨rfl, rfl⟩
    rfl

theorem fold_orXor_eq_zero (l : List (Char × Char)) :
    ∀ a : Nat, (l.foldl (fun acc p => acc ||| (p.1.toNat ^^^ p.2.toNat)) a = 0) ↔
      (a = 0 ∧ ∀ p ∈ l, p.1 = p.2) := by
  induction l with
  | nil =>
    intro a
    simp
  | cons hd tl ih =>
    intro a
    rw [List.foldl_cons, ih]
    constructor
    · rintro ⟨h1, h2⟩
      obtain ⟨ha, hx⟩ := (nat_or_eq_zero a (hd.1.toNat ^^^ hd.2.toNat)).mp h1
      refine ⟨ha, ?_⟩
      intro p hp
      rcases List.mem_cons.mp hp with hp | hp
      · rw [hp]
        exact char_toNat_inj (Nat.xor_eq_zero.mp hx)
      · exact h2 p hp
    · rintro ⟨rfl, h2⟩
      refine ⟨?_, fun p hp => h2 p (List.mem_cons_of_mem hd hp)⟩
      have hx : hd.1.toNat ^^^ hd.2.toNat = 0 :=
        Nat.xor_eq_zero.mpr (congrArg Char.toNat (h2 hd (List.mem_cons_self hd tl)))
      simp [hx]

theorem list_eq_of_zip_forall :
    ∀ (l1 l2 : List Char), l1.length = l2.length →
      (∀ p ∈ l1.zip l2, p.1 = p.2) → l1 = l2 := by
  intro l1
  induction l1 with
  | nil =>
    intro l2 h _
    cases l2 with
    | nil => rfl
    | cons d t2 => simp at h
  | cons c t1 ih =>
    intro l2 h hall
    cases l2 with
    | nil => simp at h
    | cons d t2 =>
      simp only [List.length_cons, Nat.succ.injEq] at h
      have hcd : c = d := hall (c, d) (by simp [List.zip_cons_cons])
      have ht : t1 = t2 := by
        refine ih t2 h ?_
        intro p hp
        exact hall p (by simp [List.zip_cons_cons, hp])
      rw [hcd, ht]

theorem zip_self_forall (l : List Char) : ∀ p ∈ l.zip l, p.1 = p.2 := by
  induction l with
  | nil => simp
  | cons c t ih =>
    intro p hp
    rcases List.mem_cons.mp (by simpa [List.zip_cons_cons] using hp) with hp | hp
    · rw [hp]
    · exact ih p hp

theorem string_eq_of_toList {s t : String} (h : s.toList = t.toList) : s = t :=
  String.ext h

theorem checkSignatureT_fst (sb : SignatureBase) (r : ProviderRequest) (s : Option Signer) :
    (checkSignatureT sb r s).1 = checkSignature sb r s := by
  cases s with
  | none => rfl
  | some f =>
    simp only [checkSignatureT, checkSignature]
    cases f "" (sb r.req r.oauthParams) with
    | error e => rfl
    | ok sig =>
      by_cases h1 : r.signatureToVerify.length ≠ sig.length
      · simp [h1]
      · simp only [if_neg h1]
        split <;> rfl

theorem checkSignatureT_entry (sb : SignatureBase) (r : ProviderRequest) (s : Option Signer) :
    Event.checkSig ∈ (checkSignatureT sb r s).2 := by
  cases s with
  | none => simp [checkSignatureT]
  | some f =>
    simp only [checkSignatureT]
    cases f "" (sb r.req r.oauthParams) with
    | error e => simp
    | ok sig =>
      by_cases h1 : r.signatureToVerify.length ≠ sig.length
      · simp [h1]
      · simp only [if_neg h1]
        split <;> simp

theorem checkSignatureT_some_work (sb : SignatureBase) (r : ProviderRequest) (f : Signer) :
    Event.sigBase ∈ (checkSignatureT sb r (some f)).2 ∧
      Event.sign ∈ (checkSignatureT sb r (some f)).2 := by
  simp only [checkSignatureT]
  cases f "" (sb r.req r.oauthParams) with
  | error e => simp
  | ok sig =>
    by_cases h1 : r.signatureToVerify.length ≠ sig.length
    · simp [h1]
    · simp only [if_neg h1]
      split <;> simp

theorem newProviderRequestT_fst (cp : CollectParameters) (req : HttpRequest) :
    (newProviderRequestT cp req).1 = newProviderRequest cp req := by
  simp only [newProviderRequestT, newProviderRequest]
  cases parseAuthHeader req with
  | error e => rfl
  | ok ap =>
    cases cp req ap with
    | error e => rfl
    | ok ps => rfl

theorem newProviderRequestT_trace (cp : CollectParameters) (req : HttpRequest) :
    (newProviderRequestT cp req).2 = [] ∨ (newProviderRequestT cp req).2 = [Event.collectParams] := by
  simp only [newProviderRequestT]
  cases parseAuthHeader req with
  | error e => exact Or.inl rfl
  | ok ap => exact Or.inr rfl

theorem ValidateSignatureT_fst (cp : CollectParameters) (sb : SignatureBase) (v : ClientStorage) (req : HttpRequest) :
    (ValidateSignatureT cp sb v req).1 = ValidateSignature cp sb v req := by
  have hf := newProviderRequestT_fst cp req
  rcases hpr : newProviderRequestT cp req with ⟨res, tr⟩
  rw [hpr] at hf
  simp only [ValidateSignatureT, ValidateSignature, hpr, ← hf]
  cases res with
  | error e => rfl
  | ok preq =>
    dsimp only
    cases hnon : v.validateNonce preq.clientKey preq.nonce preq.timestamp req with
    | some e => rfl
    | none =>
      cases hic : (v.getSigner preq.clientKey preq.signatureMethod req).2 with
      | some e => rfl
      | none => exact checkSignatureT_fst sb preq (v.getSigner preq.clientKey preq.signatureMethod req).1

theorem checkSignature_nil_signer (sb : SignatureBase) (r : ProviderRequest) :
    checkSignature sb r none = some .signatureMismatch := rfl

theorem checkSignature_sign_error (sb : SignatureBase) (r : ProviderRequest) (f : Signer) (e : GoError)
    (hf : f "" (sb r.req r.oauthParams) = .error e) :
    checkSignature sb r (some f) = some e := by
  simp [checkSignature, hf]

theorem checkSignature_len_ne (sb : SignatureBase) (r : ProviderRequest) (f : Signer) (s : String)
    (hf : f "" (sb r.req r.oauthParams) = .ok s) (hl : r.signatureToVerify.length ≠ s.length) :
    checkSignature sb r (some f) = some .signatureMismatch := by
  simp only [checkSignature, hf]
  rw [if_pos hl]

theorem checkSignature_len_eq_iff (sb : SignatureBase) (r : ProviderRequest) (f : Signer) (s : String)
    (hf : f "" (sb r.req r.oauthParams) = .ok s) (hl : r.signatureToVerify.length = s.length) :
    (checkSignature sb r (some f) = none ↔ r.signatureToVerify = s) := by
  simp only [checkSignature, hf]
  rw [if_neg (by simp [hl])]
  by_cases hz : (s.toList.zip r.signatureToVerify.toList).foldl
      (fun acc p => acc ||| (p.1.toNat ^^^ p.2.toNat)) 0 = 0
  · rw [if_neg (by simpa using hz)]
    constructor
    · intro _
      have hall := ((fold_orXor_eq_zero _ 0).mp hz).2
      have hlen : s.toList.length = r.signatureToVerify.toList.length := hl.symm
      exact (string_eq_of_toList (list_eq_of_zip_forall _ _ hlen hall)).symm
    · intro _
      rfl
  · rw [if_pos (by simpa using hz)]
    constructor
    · intro h
      simp at h
    · intro heq
      exfalso
      apply hz
      refine (fold_orXor_eq_zero _ 0).mpr ⟨rfl, ?_⟩
      rw [heq]
      exact zip_self_forall s.toList

theorem checkSignature_len_eq_ne (sb : SignatureBase) (r : ProviderRequest) (f : Signer) (s : String)
    (hf : f "" (sb r.req r.oauthParams) = .ok s) (hl : r.signatureToVerify.length = s.length)
    (hne : r.signatureToVerify ≠ s) :
    checkSignature sb r (some f) = some .signatureMismatch := by
  have hiff := checkSignature_len_eq_iff sb r f s hf hl
  simp only [checkSignature, hf] at hiff ⊢
  rw [if_neg (by simp [hl])] at hiff ⊢
  by_cases hz : (s.toList.zip r.signatureToVerify.toList).foldl
      (fun acc p => acc ||| (p.1.toNat ^^^ p.2.toNat)) 0 ≠ 0
  · rw [if_pos hz]
  · rw [if_neg hz] at hiff
    exact absurd (hiff.mp rfl) hne

/-- A header segment on which the parsing loop fails: either the segment
does not match the pattern, or its value does not percent-decode. -/
def segFails (seg : String) : Bool :=
  match matchAuthParam seg with
  | none => true
  | some nv =>
    match pathUnescape nv.2 with
    | .error _ => true
    | .ok _ => false

theorem segFails_false (seg : String) (h : segFails seg = false) :
    ∃ n v d, matchAuthParam seg = some (n, v) ∧ pathUnescape v = .ok d := by
  rcases hm : matchAuthParam seg with _ | ⟨n, v⟩
  · simp [segFails, hm] at h
  · rcases hu : pathUnescape v with e | d
    · simp [segFails, hm, hu] at h
    · exact ⟨n, v, d, hm ▸ rfl, hu⟩

theorem parseAuthSegments_firstFail :
    ∀ (segs : List String) (acc : List (String × String)) (seg : String),
      segs.find? segFails = some seg →
      ((matchAuthParam seg = none →
          parseAuthSegments acc segs = .error .invalidAuthHeader)
       ∧ (∀ n v e, matchAuthParam seg = some (n, v) → pathUnescape v = .error e →
            parseAuthSegments acc segs = .error e)) := by
  intro segs
  induction segs with
  | nil =>
    intro acc seg h
    simp at h
  | cons hd tl ih =>
    intro acc seg h
    by_cases hf : segFails hd = true
    · have hseg : seg = hd := by
        rw [List.find?_cons_of_pos _ hf] at h
        exact (Option.some.inj h).symm
      subst hseg
      constructor
      · intro hm
        simp [parseAuthSegments, hm]
      · intro n v e hm hu
        simp [parseAuthSegments, hm, hu]
    · have hfind : tl.find? segFails = some seg := by
        rwa [List.find?_cons_of_neg _ hf] at h
      obtain ⟨n, v, d, hm, hu⟩ := segFails_false hd (by simpa using hf)
      have hstep : parseAuthSegments acc (hd :: tl) = parseAuthSegments (insertParam acc n d) tl := by
        simp [parseAuthSegments, hm, hu]
      rw [hstep]
      exact ih (insertParam acc n d) seg hfind

/-- Parameter map whose timestamp does not parse. -/
def paramsBadTs : List (String × String) :=
  [(oauthConsumerKeyParam, "ck"), (oauthNonceParam, "n1"), (oauthTimestampParam, "abc"),
   (oauthSignatureMethodParam, "HMAC-SHA1"), (oauthSignatureParam, "sigv")]

/-- Parameter map whose timestamp parses to the non-positive value 0. -/
def paramsZeroTs : List (String × String) :=
  [(oauthConsumerKeyParam, "ck"), (oauthNonceParam, "n1"), (oauthTimestampParam, "0"),
   (oauthSignatureMethodParam, "HMAC-SHA1"), (oauthSignatureParam, "sigv")]

/-- Well-formed parameter map that additionally carries the
token-credential parameter. -/
def params6 : List (String × String) :=
  [(oauthConsumerKeyParam, "ck"), (oauthNonceParam, "n1"), (oauthTimestampParam, "1"),
   (oauthSignatureMethodParam, "HMAC-SHA1"), (oauthSignatureParam, "sigv"),
   (oauthTokenParam, "tok")]

/-! ### Claims -/

/-- C2, counterexample: when the signer's `Sign` call fails,
`checkSignature` returns that error verbatim, not the generic
signature-mismatch value, so not every failure path yields the same
error value. -/
theorem signErr_not_generic_cex :
    checkSignature sb0 pr0 (some signerBad) = some (GoError.external "boom")
    ∧ GoError.external "boom" ≠ GoError.signatureMismatch := by
  decide

/-- C2, amended: the nil-signer, length-mismatch, and differing-byte
failure paths of `checkSignature` all return the same generic
signature-mismatch value; an error from the signer's `Sign` call is the
one exception and is propagated verbatim. -/
theorem checkSignature_generic_failures (sb : SignatureBase) (r : ProviderRequest) :
    checkSignature sb r none = some GoError.signatureMismatch
    ∧ (∀ (f : Signer) (e : GoError), f "" (sb r.req r.oauthParams) = .error e →
        checkSignature sb r (some f) = some e)
    ∧ (∀ (f : Signer) (s : String), f "" (sb r.req r.oauthParams) = .ok s →
        r.signatureToVerify.length ≠ s.length →
        checkSignature sb r (some f) = some GoError.signatureMismatch)
    ∧ (∀ (f : Signer) (s : String), f "" (sb r.req r.oauthParams) = .ok s →
        r.signatureToVerify.length = s.length → r.signatureToVerify ≠ s →
        checkSignature sb r (some f) = some GoError.signatureMismatch) :=
  ⟨checkSignature_nil_signer sb r,
   fun f e hf => checkSignature_sign_error sb r f e hf,
   fun f s hf hl => checkSignature_len_ne sb r f s hf hl,
   fun f s hf hl hne => checkSignature_len_eq_ne sb r f s hf hl hne⟩

/-- C2, witness: the four failure modes at concrete inputs. -/
theorem checkSignature_generic_failures_wit :
    checkSignature sb0 pr0 none = some GoError.signatureMismatch
    ∧ checkSignature sb0 pr0 (some signerBad) = some (GoError.external "boom")
    ∧ checkSignature sb0 pr0 (some signerLong) = some GoError.signatureMismatch
    ∧ checkSignature sb0 pr0 (some signerDiff) = some GoError.signatureMismatch := by
  refine ⟨(checkSignature_generic_failures sb0 pr0).1, ?_, ?_, ?_⟩
  · exact (checkSignature_generic_failures sb0 pr0).2.1 signerBad (GoError.external "boom") rfl
  · exact (checkSignature_generic_failures sb0 pr0).2.2.1 signerLong "toolong" rfl (by decide)
  · exact (checkSignature_generic_failures sb0 pr0).2.2.2 signerDiff "sigx" rfl (by decide) (by decide)

/-- C3, counterexample: with a nil signer, `checkSignature` returns the
generic mismatch immediately: its trace shows neither a signature-base
construction nor a `Sign` call, so the expected-signature computation is
skipped rather than performed. -/
theorem nilSigner_short_circuits_cex :
    checkSignatureT sb0 pr0 none = (some GoError.signatureMismatch, [Event.checkSig])
    ∧ Event.sigBase ∉ (checkSignatureT sb0 pr0 none).2
    ∧ Event.sign ∉ (checkSignatureT sb0 pr0 none).2 := by
  decide

/-- C3, amended: a nil signer makes `checkSignature` return the generic
mismatch immediately, performing no base-string construction and no
signing; only a non-nil signer triggers those computations, so the
equal-work guarantee rests on `GetSigner` returning a usable signer even
for unknown clients. -/
theorem nilSigner_immediate_mismatch (sb : SignatureBase) (r : ProviderRequest) :
    checkSignatureT sb r none = (some GoError.signatureMismatch, [Event.checkSig])
    ∧ (∀ f : Signer, Event.sigBase ∈ (checkSignatureT sb r (some f)).2
        ∧ Event.sign ∈ (checkSignatureT sb r (some f)).2) :=
  ⟨rfl, fun f => checkSignatureT_some_work sb r f⟩

/-- C4: with a signer whose `Sign` call succeeds, `checkSignature`
reports a mismatch on differing lengths without entering the
byte-comparison loop; on equal lengths it enters the loop, accepts
exactly when all bytes agree, and otherwise reports the generic
mismatch. -/
theorem checkSignature_compare_spec (sb : SignatureBase) (r : ProviderRequest) (f : Signer) (s : String)
    (hf : f "" (sb r.req r.oauthParams) = .ok s) :
    (r.signatureToVerify.length ≠ s.length →
       checkSignature sb r (some f) = some GoError.signatureMismatch
       ∧ Event.byteCmp ∉ (checkSignatureT sb r (some f)).2)
    ∧ (r.signatureToVerify.length = s.length →
       ((checkSignature sb r (some f) = none ↔ r.signatureToVerify = s)
        ∧ (r.signatureToVerify ≠ s → checkSignature sb r (some f) = some GoError.signatureMismatch)
        ∧ Event.byteCmp ∈ (checkSignatureT sb r (some f)).2)) := by
  constructor
  · intro hl
    refine ⟨checkSignature_len_ne sb r f s hf hl, ?_⟩
    simp only [checkSignatureT, hf]
    rw [if_pos hl]
    decide
  · intro hl
    refine ⟨checkSignature_len_eq_iff sb r f s hf hl,
            fun hne => checkSignature_len_eq_ne sb r f s hf hl hne, ?_⟩
    simp only [checkSignatureT, hf]
    rw [if_neg (by simp [hl])]
    split <;> simp

/-- C4, witness: the matching signature is accepted and an equal-length
signature differing in one byte is rejected. -/
theorem checkSignature_compare_spec_wit :
    checkSignature sb0 pr0 (some signerOk) = none
    ∧ checkSignature sb0 pr0 (some signerDiff) = some GoError.signatureMismatch := by
  constructor
  · exact ((checkSignature_compare_spec sb0 pr0 signerOk "sigv" rfl).2 (by decide)).1.mpr (by decide)
  · exact ((checkSignature_compare_spec sb0 pr0 signerDiff "sigx" rfl).2 (by decide)).2.1 (by decide)

/-- C1, counterexample: with storage that reports an unknown client, and
a signer that would even validate the signature, `ValidateSignature`
returns the storage's own unknown-client error, not the generic
signature-mismatch value. -/
theorem unknownClient_error_passthrough_cex :
    ValidateSignature (cpOk params5) sb0 csUnknown req0 = some (GoError.external "unknown client")
    ∧ GoError.external "unknown client" ≠ GoError.signatureMismatch := by
  decide

/-- C1, amended: when the provider request builds, the nonce passes, and
`GetSigner` reports an error, `ValidateSignature` still invokes
`checkSignature` with whatever signer was returned before returning, but
the value it returns is the client-resolution error itself (whatever
`GetSigner` produced), which takes precedence over the signature
outcome; no generic signature-mismatch value is substituted. -/
theorem unknownClient_still_checks_signature
    (cp : CollectParameters) (sb : SignatureBase) (cs : ClientStorage) (req : HttpRequest)
    (preq : ProviderRequest) (tr : List Event) (sgn : Option Signer) (e : GoError)
    (h1 : newProviderRequestT cp req = (.ok preq, tr))
    (h2 : cs.validateNonce preq.clientKey preq.nonce preq.timestamp req = none)
    (h3 : cs.getSigner preq.clientKey preq.signatureMethod req = (sgn, some e)) :
    (ValidateSignatureT cp sb cs req).1 = some e
    ∧ Event.checkSig ∈ (ValidateSignatureT cp sb cs req).2 := by
  have h3b : (cs.getSigner preq.clientKey preq.signatureMethod req).2 = some e := by rw [h3]
  have h3a : (cs.getSigner preq.clientKey preq.signatureMethod req).1 = sgn := by rw [h3]
  have hm := checkSignatureT_entry sb preq sgn
  constructor
  · simp [ValidateSignatureT, h1, h2, h3b]
  · simp [ValidateSignatureT, h1, h2, h3b, h3a, List.mem_append]
    tauto

/-- C1, witness: the amended statement at the concrete unknown-client
storage. -/
theorem unknownClient_still_checks_signature_wit :
    (ValidateSignatureT (cpOk params5) sb0 csUnknown req0).1 = some (GoError.external "unknown client")
    ∧ Event.checkSig ∈ (ValidateSignatureT (cpOk params5) sb0 csUnknown req0).2 :=
  unknownClient_still_checks_signature (cpOk params5) sb0 csUnknown req0 pr0 [Event.collectParams]
    (some signerOk) (GoError.external "unknown client") (by decide) rfl rfl

/-- C5: once the provider request builds, a nonce-validation error is
returned immediately, before signer resolution or any signature work;
otherwise a client-resolution error is returned; otherwise the
signature-verification outcome is returned. -/
theorem validateSignature_precedence
    (cp : CollectParameters) (sb : SignatureBase) (cs : ClientStorage) (req : HttpRequest)
    (preq : ProviderRequest) (tr : List Event)
    (h1 : newProviderRequestT cp req = (.ok preq, tr)) :
    (∀ e, cs.validateNonce preq.clientKey preq.nonce preq.timestamp req = some e →
        ValidateSignatureT cp sb cs req = (some e, tr ++ [Event.validateNonce])
        ∧ Event.getSigner ∉ (ValidateSignatureT cp sb cs req).2
        ∧ Event.sigBase ∉ (ValidateSignatureT cp sb cs req).2
        ∧ Event.sign ∉ (ValidateSignatureT cp sb cs req).2)
    ∧ (∀ sgn e, cs.validateNonce preq.clientKey preq.nonce preq.timestamp req = none →
        cs.getSigner preq.clientKey preq.signatureMethod req = (sgn, some e) →
        (ValidateSignatureT cp sb cs req).1 = some e)
    ∧ (∀ sgn, cs.validateNonce preq.clientKey preq.nonce preq.timestamp req = none →
        cs.getSigner preq.clientKey preq.signatureMethod req = (sgn, none) →
        (ValidateSignatureT cp sb cs req).1 = checkSignature sb preq sgn) := by
  have htr : tr = [] ∨ tr = [Event.collectParams] := by
    rcases newProviderRequestT_trace cp req with htr | htr <;>
      rw [h1] at htr <;> [exact Or.inl htr; exact Or.inr htr]
  refine ⟨?_, ?_, ?_⟩
  · intro e hnon
    have heq : ValidateSignatureT cp sb cs req = (some e, tr ++ [Event.validateNonce]) := by
      simp [ValidateSignatureT, h1, hnon]
    rw [heq]
    rcases htr with htr | htr <;> subst htr <;> refine ⟨rfl, by simp, by simp, by simp⟩
  · intro sgn e hnon hgs
    have h3b : (cs.getSigner preq.clientKey preq.signatureMethod req).2 = some e := by rw [hgs]
    simp [ValidateSignatureT, h1, hnon, h3b]
  · intro sgn hnon hgs
    have h3b : (cs.getSigner preq.clientKey preq.signatureMethod req).2 = none := by rw [hgs]
    have h3a : (cs.getSigner preq.clientKey preq.signatureMethod req).1 = sgn := by rw [hgs]
    simp [ValidateSignatureT, h1, hnon, h3b, h3a, checkSignatureT_fst]

/-- C5, witness: a replay rejection at a concrete storage returns the
replay error with no signer resolution or signing in the trace. -/
theorem validateSignature_precedence_wit :
    ValidateSignatureT (cpOk params5) sb0 csNonce req0 =
      (some (GoError.external "replay"), [Event.collectParams, Event.validateNonce]) :=
  ((validateSignature_precedence (cpOk params5) sb0 csNonce req0 pr0 [Event.collectParams]
      (by decide)).1 (GoError.external "replay") rfl).1

/-- C6: a parameter map missing mandatory parameters makes
`checkMandatoryParams` fail with one aggregated error that carries every
missing mandatory parameter, and the same error is what validation
returns when such a map is collected. -/
theorem missingParams_aggregated (params : List (String × String))
    (h : mandatoryParams.filter (fun p => ! containsKey params p) ≠ []) :
    checkMandatoryParams params =
      some (GoError.missingParams (mandatoryParams.filter (fun p => ! containsKey params p)))
    ∧ (∀ p ∈ mandatoryParams, containsKey params p = false →
        p ∈ mandatoryParams.filter (fun p => ! containsKey params p))
    ∧ (∀ (cp : CollectParameters) (sb : SignatureBase) (cs : ClientStorage) (req : HttpRequest)
         (ap : List (String × String)),
        parseAuthHeader req = .ok ap → cp req ap = .ok params →
        ValidateSignature cp sb cs req =
          some (GoError.missingParams (mandatoryParams.filter (fun p => ! containsKey params p)))) := by
  have hlen : 0 < (mandatoryParams.filter (fun p => ! containsKey params p)).length :=
    List.length_pos.mpr h
  have hmain : checkMandatoryParams params =
      some (GoError.missingParams (mandatoryParams.filter (fun p => ! containsKey params p))) := by
    simp only [checkMandatoryParams]
    rw [if_pos hlen]
  refine ⟨hmain, ?_, ?_⟩
  · intro p hp hnc
    exact List.mem_filter.mpr ⟨hp, by simp [hnc]⟩
  · intro cp sb cs req ap hph hcp
    simp [ValidateSignature, newProviderRequest, hph, hcp, providerRequestOfParams, hmain]

/-- C6, witness: with the empty parameter map all five mandatory
parameters are reported missing, both by the guard and by validation. -/
theorem missingParams_aggregated_wit :
    checkMandatoryParams [] =
      some (GoError.missingParams (mandatoryParams.filter (fun p => ! containsKey [] p)))
    ∧ ValidateSignature (cpOk []) sb0 csOk req0 =
      some (GoError.missingParams (mandatoryParams.filter (fun p => ! containsKey [] p))) := by
  have h := missingParams_aggregated [] (by decide)
  exact ⟨h.1, h.2.2 (cpOk []) sb0 csOk req0 [] rfl rfl⟩

/-- C7: when the collected map has all mandatory parameters but its
timestamp does not parse as a 64-bit integer, or parses to a value not
strictly positive, validation fails with the respective descriptive
error before calling the nonce, signer-resolution, or signing
collaborators: its trace holds only the parameter-collection call.  The
two timestamp errors are distinct. -/
theorem timestamp_invalid_fails_early
    (cp : CollectParameters) (req : HttpRequest) (ap params : List (String × String))
    (h1 : parseAuthHeader req = .ok ap)
    (h2 : cp req ap = .ok params)
    (h3 : checkMandatoryParams params = none) :
    (parseInt64 (lookupD (eraseKey params oauthSignatureParam) oauthTimestampParam) = none →
       ∀ (sb : SignatureBase) (cs : ClientStorage),
         ValidateSignatureT cp sb cs req =
           (some (GoError.timestampParse (lookupD (eraseKey params oauthSignatureParam) oauthTimestampParam)),
            [Event.collectParams]))
    ∧ (∀ t : Int, parseInt64 (lookupD (eraseKey params oauthSignatureParam) oauthTimestampParam) = some t →
        t ≤ 0 →
        ∀ (sb : SignatureBase) (cs : ClientStorage),
          ValidateSignatureT cp sb cs req = (some (GoError.invalidTimestamp t), [Event.collectParams]))
    ∧ (∀ s t, GoError.timestampParse s ≠ GoError.invalidTimestamp t) := by
  refine ⟨?_, ?_, ?_⟩
  · intro hp sb cs
    simp [ValidateSignatureT, newProviderRequestT, h1, h2, providerRequestOfParams, h3, hp]
  · intro t hp ht sb cs
    simp [ValidateSignatureT, newProviderRequestT, h1, h2, providerRequestOfParams, h3, hp, ht]
  · intro s t
    simp

/-- C7, witness: an unparseable timestamp and a zero timestamp each fail
with their own error and a trace containing only the collection call. -/
theorem timestamp_invalid_fails_early_wit :
    ValidateSignatureT (cpOk paramsBadTs) sb0 csOk req0 =
      (some (GoError.timestampParse (lookupD (eraseKey paramsBadTs oauthSignatureParam) oauthTimestampParam)),
       [Event.collectParams])
    ∧ ValidateSignatureT (cpOk paramsZeroTs) sb0 csOk req0 =
      (some (GoError.invalidTimestamp 0), [Event.collectParams]) := by
  constructor
  · exact (timestamp_invalid_fails_early (cpOk paramsBadTs) req0 [] paramsBadTs rfl rfl
      (by decide)).1 (by decide) sb0 csOk
  · exact (timestamp_invalid_fails_early (cpOk paramsZeroTs) req0 [] paramsZeroTs rfl rfl
      (by decide)).2.1 0 (by decide) (by decide) sb0 csOk

/-- C8: a well-formed parameter map (all five mandatory parameters
present) that carries the token-credential parameter is rejected with
the explicit not-implemented error, by the guard and by validation,
whatever the storage and signer would have said. -/
theorem tokenParam_not_implemented (params : List (String × String))
    (h1 : ∀ p ∈ mandatoryParams, containsKey params p = true)
    (h2 : containsKey params oauthTokenParam = true) :
    checkMandatoryParams params = some GoError.tokenNotImplemented
    ∧ (∀ (cp : CollectParameters) (sb : SignatureBase) (cs : ClientStorage) (req : HttpRequest)
         (ap : List (String × String)),
        parseAuthHeader req = .ok ap → cp req ap = .ok params →
        ValidateSignature cp sb cs req = some GoError.tokenNotImplemented) := by
  have hfil : mandatoryParams.filter (fun p => ! containsKey params p) = [] := by
    rw [List.filter_eq_nil_iff]
    intro p hp
    simp [h1 p hp]
  have hmain : checkMandatoryParams params = some GoError.tokenNotImplemented := by
    simp [checkMandatoryParams, hfil, h2]
  refine ⟨hmain, ?_⟩
  intro cp sb cs req ap hph hcp
  simp [ValidateSignature, newProviderRequest, hph, hcp, providerRequestOfParams, hmain]

/-- C8, witness: `params6` would carry a valid signature for `csOk` and
`signerOk`, yet validation rejects it as not implemented. -/
theorem tokenParam_not_implemented_wit :
    checkMandatoryParams params6 = some GoError.tokenNotImplemented
    ∧ ValidateSignature (cpOk params6) sb0 csOk req0 = some GoError.tokenNotImplemented := by
  have h := tokenParam_not_implemented params6 (by decide) (by decide)
  exact ⟨h.1, h.2 (cpOk params6) sb0 csOk req0 [] rfl rfl⟩

/-- C10: when a mandatory parameter is missing and the token-credential
parameter is present, `checkMandatoryParams` returns the aggregated
missing-parameters error, never the not-implemented error: the token
check runs only after all five mandatory parameters are present. -/
theorem missing_before_token (params : List (String × String))
    (h1 : mandatoryParams.filter (fun p => ! containsKey params p) ≠ [])
    (_h2 : containsKey params oauthTokenParam = true) :
    checkMandatoryParams params =
      some (GoError.missingParams (mandatoryParams.filter (fun p => ! containsKey params p)))
    ∧ checkMandatoryParams params ≠ some GoError.tokenNotImplemented := by
  have hlen : 0 < (mandatoryParams.filter (fun p => ! containsKey params p)).length :=
    List.length_pos.mpr h1
  have hmain : checkMandatoryParams params =
      some (GoError.missingParams (mandatoryParams.filter (fun p => ! containsKey params p))) := by
    simp only [checkMandatoryParams]
    rw [if_pos hlen]
  refine ⟨hmain, ?_⟩
  rw [hmain]
  simp

/-- C10, witness: a map holding only the token parameter is reported for
its five missing mandatory parameters, not as not-implemented. -/
theorem missing_before_token_wit :
    checkMandatoryParams [(oauthTokenParam, "t")] =
      some (GoError.missingParams (mandatoryParams.filter
        (fun p => ! containsKey [(oauthTokenParam, "t")] p)))
    ∧ checkMandatoryParams [(oauthTokenParam, "t")] ≠ some GoError.tokenNotImplemented :=
  missing_before_token [(oauthTokenParam, "t")] (by decide) (by decide)

/-- C9, counterexample: this request's header contains the segment `foo`
with no `=`, which does not match the pattern, yet building the provider
request fails with the percent-decoding error of the earlier segment,
not with the invalid-header parse error. -/
theorem malformed_segment_error_cex :
    matchAuthParam "foo" = none
    ∧ newProviderRequest (cpOk params5) { authHeader := "OAuth a=\"%zz\",foo" } =
        .error (GoError.escapeError "%zz")
    ∧ GoError.escapeError "%zz" ≠ GoError.invalidAuthHeader := by
  decide

/-- C9, amended: a prefix-matching Authorization header with any failing
segment makes the build fail before the parameter-collection merge (the
trace is empty); the error is the invalid-header parse error when the
first failing segment fails the shape check, and that segment's
percent-decoding error when decoding is what fails first. -/
theorem authHeader_hard_failure (cp : CollectParameters) (req : HttpRequest)
    (hlen : req.authHeader.toList.length > oauthScheme.toList.length)
    (hpre : (req.authHeader.toList.take oauthScheme.toList.length).map Char.toLower =
      oauthScheme.toList.map Char.toLower) :
    ((((splitComma (req.authHeader.toList.drop oauthScheme.toList.length)).map String.mk).any segFails = true →
        ∃ e, newProviderRequestT cp req = (.error e, []))
     ∧ (∀ seg,
          ((splitComma (req.authHeader.toList.drop oauthScheme.toList.length)).map String.mk).find? segFails = some seg →
          matchAuthParam seg = none →
          newProviderRequestT cp req = (.error GoError.invalidAuthHeader, []))
     ∧ (∀ seg n v e,
          ((splitComma (req.authHeader.toList.drop oauthScheme.toList.length)).map String.mk).find? segFails = some seg →
          matchAuthParam seg = some (n, v) → pathUnescape v = .error e →
          newProviderRequestT cp req = (.error e, []))) := by
  have hph : ∀ e, parseAuthSegments []
        ((splitComma (req.authHeader.toList.drop oauthScheme.toList.length)).map String.mk) = .error e →
      newProviderRequestT cp req = (.error e, []) := by
    intro e he
    have hparse : parseAuthHeader req = .error e := by
      simp only [parseAuthHeader]
      rw [if_pos hlen, if_pos hpre, he]
    simp [newProviderRequestT, hparse]
  refine ⟨?_, ?_, ?_⟩
  · intro hany
    have hfs : (((splitComma (req.authHeader.toList.drop oauthScheme.toList.length)).map String.mk).find?
        segFails).isSome := by
      rw [List.find?_isSome]
      exact List.any_eq_true.mp hany
    obtain ⟨seg, hfind⟩ := Option.isSome_iff_exists.mp hfs
    have hsf : segFails seg = true := List.find?_some hfind
    rcases hm : matchAuthParam seg with _ | ⟨n, v⟩
    · exact ⟨GoError.invalidAuthHeader,
        hph GoError.invalidAuthHeader
          ((parseAuthSegments_firstFail _ [] seg hfind).1 hm)⟩
    · rcases hu : pathUnescape v with e | d
      · exact ⟨e, hph e ((parseAuthSegments_firstFail _ [] seg hfind).2 n v e hm hu)⟩
      · exfalso
        simp [segFails, hm, hu] at hsf
  · intro seg hfind hm
    exact hph GoError.invalidAuthHeader ((parseAuthSegments_firstFail _ [] seg hfind).1 hm)
  · intro seg n v e hfind hm hu
    exact hph e ((parseAuthSegments_firstFail _ [] seg hfind).2 n v e hm hu)

/-- C9, witness: a header whose only segment is `foo`, with no earlier
decode failure, yields the invalid-header error with an empty trace. -/
theorem authHeader_hard_failure_wit :
    newProviderRequestT (cpOk params5) { authHeader := "OAuth foo" } =
      (.error GoError.invalidAuthHeader, []) :=
  (authHeader_hard_failure (cpOk params5) { authHeader := "OAuth foo" }
      (by decide) (by decide)).2.1 "foo" (by decide) (by decide)
